import Mathlib

/-!
Verification of the ollama-chat repository's core behaviors against its
specification.  The definitions below are shallow embeddings of the
TypeScript source: `src/app/api/chat/route.ts` (streaming chat relay),
`src/app/api/title/route.ts` (title generator), and the server actions /
AWS helper files (`toggleInstance`, `checkStatus`, `getInstanceStatus`).
-/

namespace OllamaChat

/-! ### NDJSON line-buffering loop (`handleLocalChat`, chat route lines 118-164)

The loop keeps a string `buffer`, appends each decoded network chunk,
splits on `"\n"`, pops the last (possibly incomplete) piece back into the
buffer, and processes every complete line: blank (whitespace-only) lines
are skipped, each other line is JSON-parsed, and a truthy
`json.message?.content` is enqueued.  On `done`, a non-empty leftover
buffer is parsed the same way (without the blank-line skip).

We model chunks and the buffer as `List Char`.  JSON parsing together
with the `message?.content` access is abstracted as a parameter
`p : List Char → Option (Option String)`: `none` is a parse failure,
`some none` a parsed object with no content field, `some (some c)` a
parsed object whose `message.content` is `c` (a falsy, i.e. empty, `c`
is not enqueued, matching the truthiness test in the source). -/

/-- `buffer.split("\n")` with the last element separated out:
returns (complete lines, trailing partial line). -/
def splitNl : List Char → List (List Char) × List Char
  | [] => ([], [])
  | c :: cs =>
    if c = '\n' then ([] :: (splitNl cs).1, (splitNl cs).2)
    else
      match splitNl cs with
      | ([], r) => ([], c :: r)
      | (l :: ls, r) => ((c :: l) :: ls, r)

/-- The JavaScript whitespace class used by `String.prototype.trim`
(ASCII whitespace plus the common Unicode space characters). -/
def isJsWs (c : Char) : Bool :=
  c == ' ' || c == '\t' || c == '\n' || c == '\r' ||
  c == Char.ofNat 11 || c == Char.ofNat 12 ||
  c == Char.ofNat 0xa0 || c == Char.ofNat 0x1680 ||
  (0x2000 ≤ c.toNat && c.toNat ≤ 0x200a) ||
  c == Char.ofNat 0x2028 || c == Char.ofNat 0x2029 ||
  c == Char.ofNat 0x202f || c == Char.ofNat 0x205f ||
  c == Char.ofNat 0x3000 || c == Char.ofNat 0xfeff

/-- Truthiness of the extracted `json.message?.content`: emitted only when
the parse succeeded, the field is present and the string is non-empty. -/
def fragOf : Option (Option String) → Option String
  | some (some c) => if c = "" then none else some c
  | _ => none

/-- Processing of one complete line: `if (!line.trim()) continue;` then
parse and enqueue a truthy content. -/
def lineOut (p : List Char → Option (Option String)) (l : List Char) : Option String :=
  if l.all isJsWs then none else fragOf (p l)

/-- Processing of the leftover buffer at stream end:
`if (buffer) { ... JSON.parse(buffer) ... }`. -/
def finalOut (p : List Char → Option (Option String)) (buf : List Char) : List String :=
  if buf = [] then [] else (fragOf (p buf)).toList

/-- One iteration of the read loop on a freshly decoded chunk: append to
the buffer, split on newlines, keep the last piece as the new buffer and
emit the fragments of the complete lines. -/
def feedChunk (p : List Char → Option (Option String)) (buf chunk : List Char) :
    List Char × List String :=
  ((splitNl (buf ++ chunk)).2, (splitNl (buf ++ chunk)).1.filterMap (lineOut p))

/-- The whole read loop: fold `feedChunk` over the chunk sequence starting
from the given buffer, then flush the leftover buffer. -/
def runStream (p : List Char → Option (Option String)) (buf : List Char) :
    List (List Char) → List String
  | [] => finalOut p buf
  | c :: cs => (feedChunk p buf c).2 ++ runStream p (feedChunk p buf c).1 cs

/-- The fragment sequence emitted by `handleLocalChat`'s parsing loop for a
given sequence of network read chunks. -/
def localChatEmits (p : List Char → Option (Option String))
    (chunks : List (List Char)) : List String :=
  runStream p [] chunks

/-- The fragment sequence determined by the concatenated body alone:
fragments of all complete lines followed by the flush of the trailing
partial line. -/
def streamTotal (p : List Char → Option (Option String)) (s : List Char) : List String :=
  (splitNl s).1.filterMap (lineOut p) ++ finalOut p (splitNl s).2

/-- `s1 ++ "\n" ++ s2 ++ "\n" ++ ...`: a body made of newline-terminated lines. -/
def joinLines (ls : List (List Char)) : List Char :=
  (ls.map (fun l => l ++ ['\n'])).flatten

/-- Gluing the trailing partial line of a left part onto the split of a
right part (the combinator underlying `splitNl_append`). -/
def nlGlue (r : List Char) : List (List Char) × List Char → List (List Char) × List Char
  | ([], rb) => ([], r ++ rb)
  | (l :: ls, rb) => ((r ++ l) :: ls, rb)

/-- A sample parse function for concrete evaluation: every line parses and
its content is the line itself. -/
def sampleParse : List Char → Option (Option String) :=
  fun l => some (some (String.mk l))

/-- A sample parse function under which the line `x` is malformed and every
other line parses with its own text as content. -/
def badParse : List Char → Option (Option String) :=
  fun l => if l = ['x'] then none else some (some (String.mk l))

/-! ### Instance lifecycle: `getInstanceStatus` (lib/aws), `toggleInstance`
and `checkStatus` (server actions)

`getInstanceStatus` throws when `EC2_INSTANCE_ID` is unset, sends a
DescribeInstances call, returns the string `"unknown"` when no instance
comes back, and otherwise the record
`{ state: instance.State?.Name || "unknown", publicIp: instance.PublicIpAddress || null }`.
The provider interaction is modelled by `DescribeOutcome`; a thrown
provider error is `.throws`.  Exceptions are `Except.error`. -/

/-- Outcome of the EC2 DescribeInstances call: the send throws, no
instance is found, or an instance with optional state name and optional
public IP address is returned (absent SDK fields are `none`). -/
inductive DescribeOutcome
  | throws
  | noInstance
  | found (stateName : Option String) (publicIp : Option String)
deriving DecidableEq

/-- The record `{ state, publicIp }` built by `getInstanceStatus`. -/
structure InstRec where
  state : String
  publicIp : Option String
deriving DecidableEq

/-- `getInstanceStatus` from `lib/aws`: throws on a missing instance id or
a provider error, returns the bare string `"unknown"` when the reservation
holds no instance, else the state/ip record with `|| "unknown"` and
`|| null` truthy defaults applied. -/
def getInstanceStatusM (instanceId : String) (d : DescribeOutcome) :
    Except Unit (Sum String InstRec) :=
  if instanceId = "" then .error ()
  else
    match d with
    | .throws => .error ()
    | .noInstance => .ok (.inl "unknown")
    | .found st ip =>
      .ok (.inr
        { state := match st with
            | none => "unknown"
            | some s => if s = "" then "unknown" else s
          publicIp := match ip with
            | none => none
            | some i => if i = "" then none else some i })

inductive ToggleAction
  | start
  | stop
deriving DecidableEq

/-- The EC2 commands `toggleInstance` can send. -/
inductive Ec2Call
  | startCall
  | stopCall
deriving DecidableEq

/-- The `{ success, error? }` object returned by `toggleInstance`. -/
structure ToggleResult where
  success : Bool
  error : Option String
deriving DecidableEq

/-- `toggleInstance` from the server actions file: a falsy (unset or
empty) `ADMIN_PASSWORD` or a mismatched password short-circuits to
`success:false` with no EC2 call; otherwise the start/stop command is
attempted inside try/catch (`startInstance`/`stopInstance` themselves
throw before sending when `EC2_INSTANCE_ID` is empty).  The second
component records the EC2 commands actually sent. -/
def toggleInstance (adminPassword : Option String) (instanceId : String)
    (action : ToggleAction) (password : String) (sendFails : Bool) :
    ToggleResult × List Ec2Call :=
  match adminPassword with
  | none => ({ success := false, error := some "Invalid password" }, [])
  | some ap =>
    if ap = "" ∨ password ≠ ap then
      ({ success := false, error := some "Invalid password" }, [])
    else if instanceId = "" then
      ({ success := false, error := some "Failed to perform action" }, [])
    else
      let call := match action with
        | .start => Ec2Call.startCall
        | .stop => Ec2Call.stopCall
      if sendFails then
        ({ success := false, error := some "Failed to perform action" }, [call])
      else
        ({ success := true, error := none }, [call])

/-- `process.env.X || defaultValue`: an unset or empty environment value
falls back to the default. -/
def envOr (v : Option String) (d : String) : String :=
  match v with
  | none => d
  | some s => if s = "" then d else s

/-- Truthiness of an optional environment string (`!!process.env.X`). -/
def tokenTruthy (t : Option String) : Bool :=
  match t with
  | none => false
  | some s => s != ""

/-- The `InstanceStatus` record produced by `checkStatus`. -/
structure FullStatus where
  state : String
  publicIp : Option String
  modelName : String
  cloudModelName : Option String
  hasCloudModel : Bool
deriving DecidableEq

/-- `checkStatus` from the server actions file.  The try/catch around
`getInstanceStatus` is the `Except.error` branch; a string result or an
error both collapse to state `"unknown"` with no address.  Totality of
this Lean function is the never-raises guarantee. -/
def checkStatus (ollamaModel hfToken : Option String) (instanceId : String)
    (d : DescribeOutcome) : FullStatus :=
  let modelName := envOr ollamaModel "dolphin-llama3:8b"
  let hasCloudModel := tokenTruthy hfToken
  let cloudModelName := if hasCloudModel then some "Kimi-K2.5" else none
  match getInstanceStatusM instanceId d with
  | .error _ =>
    { state := "unknown", publicIp := none, modelName := modelName,
      cloudModelName := cloudModelName, hasCloudModel := hasCloudModel }
  | .ok (.inl _) =>
    { state := "unknown", publicIp := none, modelName := modelName,
      cloudModelName := cloudModelName, hasCloudModel := hasCloudModel }
  | .ok (.inr r) =>
    { state := if r.state = "" then "unknown" else r.state, publicIp := r.publicIp,
      modelName := modelName, cloudModelName := cloudModelName,
      hasCloudModel := hasCloudModel }

/-! ### Cloud message translation (`handleCloudChat`, chat route lines 20-53) -/

/-- One element of the request's `messages` array. -/
structure ChatMsg where
  role : String
  content : String
  images : Option (List String)
deriving DecidableEq

/-- One element of a structured multimodal content list. -/
inductive ContentPart
  | text (t : String)
  | imageUrl (url : String)
deriving DecidableEq

/-- The content of a formatted upstream message: a plain string or a
structured part list. -/
inductive FormedContent
  | plain (s : String)
  | parts (l : List ContentPart)
deriving DecidableEq

/-- A formatted upstream message. -/
structure FormedMsg where
  role : String
  content : FormedContent
deriving DecidableEq

/-- The per-message body of `formattedMessages = messages.map(...)` in
`handleCloudChat`: a user message with a non-empty image list becomes a
structured list with each image first, then one text part (the message
text if truthy, else the placeholder); everything else passes through as
plain content with its role. -/
def formatCloudMessage (m : ChatMsg) : FormedMsg :=
  match m.images with
  | some imgs =>
    if 0 < imgs.length ∧ m.role = "user" then
      { role := m.role
        content := .parts (imgs.map ContentPart.imageUrl ++
          [ContentPart.text (if m.content = "" then "Describe this image." else m.content)]) }
    else { role := m.role, content := .plain m.content }
  | none => { role := m.role, content := .plain m.content }

/-- `handleCloudChat`'s message translation over the whole turn list. -/
def formatCloudMessages (ms : List ChatMsg) : List FormedMsg :=
  ms.map formatCloudMessage

/-! ### Chat route dispatch and preconditions (`POST`, chat route lines 171-190) -/

/-- Upstream chat-completion calls the relay can issue. -/
inductive UpstreamChatCall
  | ollamaChat (ip : String)
  | hfCreate
deriving DecidableEq

/-- The route's observable answer up to the first upstream call: an early
non-streaming rejection carrying an HTTP status and a short diagnostic, or
entry into the streaming path. -/
inductive ChatRouteResp
  | reject (status : Nat) (msg : String)
  | stream
deriving DecidableEq

/-- The chat `POST` handler up to the point where an upstream
chat-completion call is issued.  Provider `"cloud"` requires a truthy
`HF_TOKEN`; any other provider goes to `handleLocalChat`, which requires
`getInstanceStatus` to yield a record with state `"running"` and a truthy
public IP.  A throw from `getInstanceStatus` is caught by the route's
try/catch (500 response).  The second component lists the upstream calls
issued. -/
def chatPOST (hfToken : Option String) (instanceId : String) (d : DescribeOutcome)
    (provider : String) : ChatRouteResp × List UpstreamChatCall :=
  if provider = "cloud" then
    if tokenTruthy hfToken = false then
      (.reject 500 "HF_TOKEN not configured", [])
    else (.stream, [.hfCreate])
  else
    match getInstanceStatusM instanceId d with
    | .error _ => (.reject 500 "Failed to generate response.", [])
    | .ok (.inl _) => (.reject 503 "EC2 instance is not running", [])
    | .ok (.inr r) =>
      match r.publicIp with
      | none => (.reject 503 "EC2 instance is not running", [])
      | some ip =>
        if r.state = "running" then (.stream, [.ollamaChat ip])
        else (.reject 503 "EC2 instance is not running", [])

/-- The local-chat precondition test of the chat and title routes:
`typeof status === "string" || status.state !== "running" || !status.publicIp`,
with a thrown `getInstanceStatus` also counting as not ready. -/
def statusNotReady (instanceId : String) (d : DescribeOutcome) : Bool :=
  match getInstanceStatusM instanceId d with
  | .error _ => true
  | .ok (.inl _) => true
  | .ok (.inr r) => r.state != "running" || r.publicIp.isNone

/-! ### Title generation (`title/route.ts`)

`generateTitleLocal` cleans `data.response || message.slice(0,40)` with
`.replace(/<think>[\s\S]*?<\/think>/gi, "")` (lazy, global,
case-insensitive), `.replace(/<think>[\s\S]*$/gi, "")`,
`.replace(/^["']|["']$/g, "")`, `.replace(/\n/g, " ")`, `.trim()`.
`generateTitleCloud` only trims.  The route handler then strips wrapping
quotes, collapses newlines, trims, truncates beyond 50 characters to 47
plus `"..."`, and falls back to `message.slice(0,40)` when empty.
Strings are `List Char`. -/

def thinkOpenPat : List Char := ['<', 't', 'h', 'i', 'n', 'k', '>']

def thinkClosePat : List Char := ['<', '/', 't', 'h', 'i', 'n', 'k', '>']

/-- Case-insensitive test that the lowercase pattern starts the string. -/
def headMatchesCI : List Char → List Char → Bool
  | [], _ => true
  | _ :: _, [] => false
  | p :: ps, c :: cs => (p == c.toLower) && headMatchesCI ps cs

/-- Scan for the first (case-insensitive) `</think>` and drop through it;
`none` when no closing marker occurs. -/
def dropThinkClose : List Char → Option (List Char)
  | [] => none
  | c :: cs =>
    if headMatchesCI thinkClosePat (c :: cs) then some ((c :: cs).drop 8)
    else dropThinkClose cs

/-- Fuelled scanner for `.replace(/<think>[\s\S]*?<\/think>/gi, "")`: at a
(case-insensitive) `<think>`, the lazy match extends to the first
`</think>` and the whole block is removed; without a closing marker ahead
no match can start here, so the character is kept.  Fuel equal to the
input length always suffices because each removed block consumes at least
one character. -/
def removeThinkBlocksAux : Nat → List Char → List Char
  | 0, s => s
  | _ + 1, [] => []
  | fuel + 1, c :: cs =>
    if headMatchesCI thinkOpenPat (c :: cs) then
      match dropThinkClose ((c :: cs).drop 7) with
      | some t => removeThinkBlocksAux fuel t
      | none => c :: removeThinkBlocksAux fuel cs
    else c :: removeThinkBlocksAux fuel cs

/-- `.replace(/<think>[\s\S]*?<\/think>/gi, "")`. -/
def removeThinkBlocks (s : List Char) : List Char :=
  removeThinkBlocksAux s.length s

/-- `.replace(/<think>[\s\S]*$/gi, "")`: truncate at the first
(case-insensitive) `<think>`. -/
def removeTrailingThink : List Char → List Char
  | [] => []
  | c :: cs =>
    if headMatchesCI thinkOpenPat (c :: cs) then []
    else c :: removeTrailingThink cs

def isQuoteCh (c : Char) : Bool :=
  c == '"' || c == '\''

/-- Remove one leading quote character if present. -/
def stripLeadQuote : List Char → List Char
  | [] => []
  | c :: cs => if isQuoteCh c then cs else c :: cs

/-- `.replace(/^["']|["']$/g, "")`: one leading and one trailing quote
character are removed. -/
def stripQuotesEnds (s : List Char) : List Char :=
  (stripLeadQuote (stripLeadQuote s).reverse).reverse

/-- `.replace(/\n/g, " ")`. -/
def collapseNewlines (s : List Char) : List Char :=
  s.map fun c => if c = '\n' then ' ' else c

/-- `String.prototype.trim`. -/
def jsTrim (s : List Char) : List Char :=
  ((s.dropWhile isJsWs).reverse.dropWhile isJsWs).reverse

/-- The cleaning chain inside `generateTitleLocal` (title route lines 46-52). -/
def cleanLocalTitle (r : List Char) : List Char :=
  jsTrim (collapseNewlines (stripQuotesEnds (removeTrailingThink (removeThinkBlocks r))))

/-- `if (title.length > 50) title = title.slice(0, 47) + "...";`. -/
def truncate50 (s : List Char) : List Char :=
  if 50 < s.length then s.take 47 ++ ['.', '.', '.'] else s

/-- The route handler's final clean-up, truncation and empty-title
fallback (title route lines 79-88) applied to the generated title. -/
def finishTitle (message t : List Char) : List Char :=
  let c := truncate50 (jsTrim (collapseNewlines (stripQuotesEnds t)))
  if c = [] then message.take 40 else c

/-- Outcome of `generateTitleLocal`'s fetch to the Ollama generate
endpoint: the fetch throws, the response is not ok, or it is ok with
`data.response` modelled as a char list (`[]` for an absent or empty,
i.e. falsy, field). -/
inductive LocalTitleOutcome
  | throws
  | notOk
  | ok (resp : List Char)
deriving DecidableEq

/-- Outcome of `generateTitleCloud`'s completion call: it throws, or
returns with `choices[0]?.message?.content` (`none` when the optional
chain is undefined). -/
inductive CloudTitleOutcome
  | throws
  | ok (content : Option (List Char))
deriving DecidableEq

/-- `generateTitleLocal` on a successful (`response.ok`) fetch:
`(data.response || message.slice(0, 40))` cleaned by the chain. -/
def titleLocalSuccess (message resp : List Char) : List Char :=
  cleanLocalTitle (if resp = [] then message.take 40 else resp)

/-- `generateTitleCloud` on a successful call:
`content?.trim() || message.slice(0, 40)`. -/
def titleCloudSuccess (message : List Char) (content : Option (List Char)) : List Char :=
  match content with
  | none => message.take 40
  | some c => if jsTrim c = [] then message.take 40 else jsTrim c

/-- The title `POST` handler: early raw-slice returns for a falsy
`HF_TOKEN` (cloud) and a not-ready instance (local); the catch-all also
returns the raw slice when the upstream call throws; otherwise the
generated title goes through the final clean-up/truncation/fallback.
Only the outcome parameter matching the selected provider is consulted. -/
def titlePOST (hfToken : Option String) (instanceId : String) (d : DescribeOutcome)
    (provider : String) (message : List Char)
    (lo : LocalTitleOutcome) (co : CloudTitleOutcome) : List Char :=
  if provider = "cloud" then
    if tokenTruthy hfToken = false then message.take 40
    else
      match co with
      | .throws => message.take 40
      | .ok content => finishTitle message (titleCloudSuccess message content)
  else
    if statusNotReady instanceId d then message.take 40
    else
      match lo with
      | .throws => message.take 40
      | .notOk => finishTitle message (message.take 40)
      | .ok resp => finishTitle message (titleLocalSuccess message resp)

theorem splitNl_nil : splitNl [] = ([], []) := rfl

theorem splitNl_cons_nl (cs : List Char) :
    splitNl ('\n' :: cs) = ([] :: (splitNl cs).1, (splitNl cs).2) := by
  simp [splitNl]

theorem splitNl_cons_ne (c : Char) (cs : List Char) (h : c ≠ '\n') :
    splitNl (c :: cs) =
      match splitNl cs with
      | ([], r) => ([], c :: r)
      | (l :: ls, r) => ((c :: l) :: ls, r) := by
  simp [splitNl, h]

/-- The trailing partial line returned by `splitNl` never contains a newline. -/
theorem splitNl_snd_not_mem (s : List Char) : '\n' ∉ (splitNl s).2 := by
  induction s with
  | nil => simp [splitNl]
  | cons c cs ih =>
    by_cases hc : c = '\n'
    · subst hc; rw [splitNl_cons_nl]; exact ih
    · rw [splitNl_cons_ne c cs hc]
      rcases h : splitNl cs with ⟨lq, rq⟩
      cases lq with
      | nil =>
        simp only
        intro hmem
        rcases List.mem_cons.mp hmem with h1 | h1
        · exact hc h1.symm
        · exact ih (by rw [h]; exact h1)
      | cons l ls =>
        simp only
        exact fun hmem => ih (by rw [h]; exact hmem)

/-- Splitting a newline-free string yields no complete line and the string
itself as leftover. -/
theorem splitNl_eq_of_not_mem (s : List Char) (h : '\n' ∉ s) : splitNl s = ([], s) := by
  induction s with
  | nil => rfl
  | cons c cs ih =>
    have hc : c ≠ '\n' := fun hh => h (hh ▸ List.mem_cons_self c cs)
    have hcs : '\n' ∉ cs := fun hh => h (List.mem_cons_of_mem c hh)
    rw [splitNl_cons_ne c cs hc, ih hcs]

/-- How `splitNl` acts on a concatenation: the complete lines of `a`, then
the leftover of `a` glued onto the split of `b`. -/
theorem splitNl_append (a b : List Char) :
    splitNl (a ++ b) =
      ((splitNl a).1 ++ (nlGlue (splitNl a).2 (splitNl b)).1,
       (nlGlue (splitNl a).2 (splitNl b)).2) := by
  induction a with
  | nil =>
    rcases h : splitNl b with ⟨lb, rb⟩
    cases lb <;> simp [splitNl, nlGlue, h]
  | cons c a ih =>
    by_cases hc : c = '\n'
    · subst hc
      rw [List.cons_append, splitNl_cons_nl, splitNl_cons_nl, ih]
      simp
    · rw [List.cons_append, splitNl_cons_ne c _ hc, splitNl_cons_ne c a hc, ih]
      rcases hQ : splitNl a with ⟨lq, rq⟩
      rcases hR : splitNl b with ⟨lrb, rrb⟩
      cases lq <;> cases lrb <;> simp [nlGlue]

/-- Peeling a prefix off the body: the complete lines of `a` are emitted,
and processing continues on `a`'s leftover prepended to the rest. -/
theorem streamTotal_append (p : List Char → Option (Option String)) (a t : List Char) :
    streamTotal p (a ++ t) =
      (splitNl a).1.filterMap (lineOut p) ++ streamTotal p ((splitNl a).2 ++ t) := by
  have h2 : splitNl ((splitNl a).2 ++ t) = nlGlue (splitNl a).2 (splitNl t) := by
    rw [splitNl_append, splitNl_eq_of_not_mem _ (splitNl_snd_not_mem a)]
    rcases h : splitNl t with ⟨lt, rt⟩
    cases lt <;> simp [nlGlue]
  unfold streamTotal
  rw [splitNl_append a t, h2]
  simp [List.filterMap_append]

/-- The read loop from any newline-free buffer computes exactly the
function of the concatenated remaining bytes. -/
theorem runStream_eq_total (p : List Char → Option (Option String))
    (cs : List (List Char)) :
    ∀ buf : List Char, '\n' ∉ buf → runStream p buf cs = streamTotal p (buf ++ cs.flatten) := by
  induction cs with
  | nil =>
    intro buf h
    simp [runStream, streamTotal, splitNl_eq_of_not_mem buf h]
  | cons c cs ih =>
    intro buf h
    show (feedChunk p buf c).2 ++ runStream p (feedChunk p buf c).1 cs = _
    rw [ih _ (by simpa [feedChunk] using splitNl_snd_not_mem (buf ++ c))]
    have : buf ++ (c :: cs).flatten = (buf ++ c) ++ cs.flatten := by
      simp [List.flatten]
    rw [this, streamTotal_append p (buf ++ c) cs.flatten]
    simp [feedChunk]

/-- C1: the local-backend parsing loop is chunking-invariant — for any two
ways of splitting the same response body into successive network read
chunks, `handleLocalChat` emits the same fragment sequence in the same
order; the output depends only on the concatenated bytes. -/
theorem local_chunking_invariance (p : List Char → Option (Option String))
    (cs₁ cs₂ : List (List Char)) (h : cs₁.flatten = cs₂.flatten) :
    localChatEmits p cs₁ = localChatEmits p cs₂ := by
  unfold localChatEmits
  rw [runStream_eq_total p cs₁ [] (by simp), runStream_eq_total p cs₂ [] (by simp), h]

theorem local_chunking_invariance_witness :
    localChatEmits sampleParse [['a', 'b'], ['c', '\n', 'd']] =
      localChatEmits sampleParse [['a'], ['b', 'c', '\n'], ['d']] :=
  local_chunking_invariance sampleParse
    [['a', 'b'], ['c', '\n', 'd']] [['a'], ['b', 'c', '\n'], ['d']] (by decide)

/-- Splitting a body made of newline-terminated, newline-free lines
followed by a tail: every line is complete and the tail is split on its own. -/
theorem splitNl_joinLines (ls : List (List Char)) (t : List Char)
    (h : ∀ l ∈ ls, '\n' ∉ l) :
    splitNl (joinLines ls ++ t) = (ls ++ (splitNl t).1, (splitNl t).2) := by
  induction ls with
  | nil => simp [joinLines]
  | cons l ls ih =>
    have hl : '\n' ∉ l := h l (List.mem_cons_self l ls)
    have hls : ∀ x ∈ ls, '\n' ∉ x := fun x hx => h x (List.mem_cons_of_mem l hx)
    have harr : joinLines (l :: ls) ++ t = l ++ ('\n' :: (joinLines ls ++ t)) := by
      simp [joinLines]
    rw [harr, splitNl_append, splitNl_eq_of_not_mem l hl, splitNl_cons_nl, ih hls]
    simp [nlGlue]

/-- C2: for a local-backend body whose final line is not newline-terminated,
the non-empty leftover buffer is parsed as a final JSON value at stream end
and its text fragment is emitted exactly once, as the last emission before
the stream closes (the preceding emissions being those of the complete
lines). -/
theorem local_final_buffer_emitted (p : List Char → Option (Option String))
    (ls : List (List Char)) (tail f : String)
    (hls : ∀ l ∈ ls, '\n' ∉ l) (htail : '\n' ∉ tail.toList) (hne : tail.toList ≠ [])
    (hp : p tail.toList = some (some f)) (hf : f ≠ "") :
    localChatEmits p [joinLines ls ++ tail.toList] = ls.filterMap (lineOut p) ++ [f] := by
  unfold localChatEmits
  show (feedChunk p [] _).2 ++ runStream p (feedChunk p [] _).1 [] = _
  have hsplit : splitNl ([] ++ (joinLines ls ++ tail.toList)) = (ls, tail.toList) := by
    rw [List.nil_append, splitNl_joinLines ls tail.toList hls,
      splitNl_eq_of_not_mem tail.toList htail]
    simp
  simp only [feedChunk, hsplit, runStream, finalOut, hne, if_neg hne, hp, fragOf]
  rw [if_neg hf]
  rfl

theorem local_final_buffer_emitted_witness :
    localChatEmits sampleParse [joinLines [['a']] ++ "tail".toList] =
      [['a']].filterMap (lineOut sampleParse) ++ ["tail"] :=
  local_final_buffer_emitted sampleParse [['a']] "tail" "tail"
    (by decide) (by decide) (by decide) (by decide) (by decide)

/-- C3: a complete line that fails to parse as JSON is skipped without
terminating the outbound stream — the emitted fragment sequence is exactly
the one for the same body with the malformed line removed, so all
subsequent valid lines still produce output. -/
theorem local_bad_line_skipped (p : List Char → Option (Option String))
    (ls₁ ls₂ : List (List Char)) (bad : List Char)
    (h₁ : ∀ l ∈ ls₁, '\n' ∉ l) (h₂ : ∀ l ∈ ls₂, '\n' ∉ l) (hbad : '\n' ∉ bad)
    (hfail : p bad = none) :
    localChatEmits p [joinLines (ls₁ ++ bad :: ls₂)] =
      localChatEmits p [joinLines (ls₁ ++ ls₂)] := by
  have hallbad : ∀ l ∈ ls₁ ++ bad :: ls₂, '\n' ∉ l := by
    intro l hl
    rcases List.mem_append.mp hl with h | h
    · exact h₁ l h
    · rcases List.mem_cons.mp h with h | h
      · exact h ▸ hbad
      · exact h₂ l h
  have hall : ∀ l ∈ ls₁ ++ ls₂, '\n' ∉ l := by
    intro l hl
    rcases List.mem_append.mp hl with h | h
    · exact h₁ l h
    · exact h₂ l h
  have key : ∀ L : List (List Char), (∀ l ∈ L, '\n' ∉ l) →
      localChatEmits p [joinLines L] = L.filterMap (lineOut p) := by
    intro L hL
    unfold localChatEmits
    show (feedChunk p [] _).2 ++ runStream p (feedChunk p [] _).1 [] = _
    have hsplit : splitNl (joinLines L) = (L, []) := by
      have harr : joinLines L = joinLines L ++ [] := by simp
      rw [harr, splitNl_joinLines L [] hL]
      simp [splitNl]
    simp [feedChunk, hsplit, runStream, finalOut]
  rw [key _ hallbad, key _ hall]
  have hbadout : lineOut p bad = none := by
    unfold lineOut
    rw [hfail]
    split <;> rfl
  simp [List.filterMap_append, List.filterMap_cons, hbadout]

theorem local_bad_line_skipped_witness :
    localChatEmits badParse [joinLines [['a'], ['x'], ['b']]] =
      localChatEmits badParse [joinLines [['a'], ['b']]] :=
  local_bad_line_skipped badParse [['a']] [['b']] ['x']
    (by decide) (by decide) (by decide) (by decide)

/-- C4: whenever the supplied password differs from the configured admin
secret, `toggleInstance` returns `success:false` with the opaque
`"Invalid password"` reason and issues no EC2 start/stop command. -/
theorem toggle_wrong_secret (adminPassword : Option String) (instanceId : String)
    (action : ToggleAction) (password : String) (sendFails : Bool)
    (h : ∀ s, adminPassword = some s → password ≠ s) :
    toggleInstance adminPassword instanceId action password sendFails =
      ({ success := false, error := some "Invalid password" }, []) := by
  cases adminPassword with
  | none => rfl
  | some ap =>
    have hne : password ≠ ap := h ap rfl
    simp [toggleInstance, hne]

theorem toggle_wrong_secret_witness :
    toggleInstance (some "secret") "i-1" ToggleAction.start "guess" false =
      ({ success := false, error := some "Invalid password" }, []) :=
  toggle_wrong_secret (some "secret") "i-1" ToggleAction.start "guess" false
    (by intro s hs; cases hs; decide)

/-- C10: with no admin secret configured (`ADMIN_PASSWORD` unset or
empty), `toggleInstance` fails closed — every supplied password, the
empty one included, yields `success:false` with the invalid-credential
reason and no EC2 call. -/
theorem toggle_fail_closed (adminPassword : Option String) (instanceId : String)
    (action : ToggleAction) (password : String) (sendFails : Bool)
    (h : adminPassword = none ∨ adminPassword = some "") :
    toggleInstance adminPassword instanceId action password sendFails =
      ({ success := false, error := some "Invalid password" }, []) := by
  rcases h with h | h <;> subst h <;> simp [toggleInstance]

theorem toggle_fail_closed_witness :
    toggleInstance (some "") "i-1" ToggleAction.stop "" true =
      ({ success := false, error := some "Invalid password" }, []) :=
  toggle_fail_closed (some "") "i-1" ToggleAction.stop "" true (Or.inr rfl)

/-- C5: `checkStatus` never raises — it is a total function of the
describe outcome (the try/catch is the `Except.error` branch of
`getInstanceStatusM`) — and on any failure (missing instance id, thrown
provider error, or no matching resource) the returned record has state
`"unknown"` and a null public address. -/
theorem checkStatus_failure_unknown (om tok : Option String) (iid : String)
    (d : DescribeOutcome)
    (h : iid = "" ∨ d = DescribeOutcome.throws ∨ d = DescribeOutcome.noInstance) :
    (checkStatus om tok iid d).state = "unknown" ∧
      (checkStatus om tok iid d).publicIp = none := by
  rcases h with h | h | h
  · subst h
    simp [checkStatus, getInstanceStatusM]
  · subst h
    by_cases hi : iid = "" <;> simp [checkStatus, getInstanceStatusM, hi]
  · subst h
    by_cases hi : iid = "" <;> simp [checkStatus, getInstanceStatusM, hi]

theorem checkStatus_failure_unknown_witness :
    (checkStatus none none "i-1" DescribeOutcome.throws).state = "unknown" ∧
      (checkStatus none none "i-1" DescribeOutcome.throws).publicIp = none :=
  checkStatus_failure_unknown none none "i-1" DescribeOutcome.throws (Or.inr (Or.inl rfl))

/-- C6: `handleCloudChat`'s message translation — a user turn with a
non-empty image list becomes a structured content list with each image
first, in order, followed by exactly one text part (the turn's text if
non-empty, else `"Describe this image."`); a turn without images passes
through as plain text with its role preserved; and a user turn with two
images and empty text yields exactly the three parts image, image,
text(`"Describe this image."`). -/
theorem cloud_message_translation :
    (∀ (m : ChatMsg) (imgs : List String), m.images = some imgs → imgs ≠ [] →
      m.role = "user" →
      formatCloudMessage m =
        { role := m.role
          content := .parts (imgs.map ContentPart.imageUrl ++
            [ContentPart.text (if m.content = "" then "Describe this image."
              else m.content)]) }) ∧
    (∀ m : ChatMsg, m.images = none ∨ m.images = some [] →
      formatCloudMessage m = { role := m.role, content := .plain m.content }) ∧
    (∀ u₁ u₂ : String,
      formatCloudMessage { role := "user", content := "", images := some [u₁, u₂] } =
        { role := "user"
          content := .parts [.imageUrl u₁, .imageUrl u₂,
            .text "Describe this image."] }) := by
  refine ⟨?_, ?_, ?_⟩
  · intro m imgs hi hne hrole
    have hlen : 0 < imgs.length := List.length_pos.mpr hne
    simp [formatCloudMessage, hi, hlen, hrole]
  · intro m h
    rcases h with h | h <;> simp [formatCloudMessage, h]
  · intro u₁ u₂
    simp [formatCloudMessage]

theorem cloud_message_translation_witness :
    formatCloudMessage { role := "user", content := "hi", images := some ["img1"] } =
      { role := "user", content := .parts [.imageUrl "img1", .text "hi"] } := by
  have h := cloud_message_translation.1
    { role := "user", content := "hi", images := some ["img1"] } ["img1"]
    rfl (by decide) rfl
  simpa using h

/-- C7: a chat request with a failed precondition — provider `"cloud"`
with a falsy `HF_TOKEN`, or a non-cloud provider whose instance status is
not a running record with a public address — is rejected with a non-2xx
status and a short diagnostic, and no upstream chat-completion call is
issued. -/
theorem chat_precondition_reject (hfToken : Option String) (instanceId : String)
    (d : DescribeOutcome) (provider : String)
    (h : (provider = "cloud" ∧ tokenTruthy hfToken = false) ∨
         (provider ≠ "cloud" ∧ statusNotReady instanceId d = true)) :
    (∃ code msg, (chatPOST hfToken instanceId d provider).1 =
        ChatRouteResp.reject code msg ∧ ¬(200 ≤ code ∧ code < 300)) ∧
      (chatPOST hfToken instanceId d provider).2 = [] := by
  rcases h with ⟨hp, ht⟩ | ⟨hp, hs⟩
  · have hc : chatPOST hfToken instanceId d provider =
        (.reject 500 "HF_TOKEN not configured", []) := by
      subst hp; simp [chatPOST, ht]
    rw [hc]
    exact ⟨⟨500, "HF_TOKEN not configured", rfl, by omega⟩, rfl⟩
  · have hc : chatPOST hfToken instanceId d provider =
        (.reject 500 "Failed to generate response.", []) ∨
        chatPOST hfToken instanceId d provider =
        (.reject 503 "EC2 instance is not running", []) := by
      cases hg : getInstanceStatusM instanceId d with
      | error e => left; simp [chatPOST, hp, hg]
      | ok v =>
        cases v with
        | inl s => right; simp [chatPOST, hp, hg]
        | inr r =>
          have hs' : (r.state != "running" || r.publicIp.isNone) = true := by
            unfold statusNotReady at hs
            rw [hg] at hs
            exact hs
          cases hip : r.publicIp with
          | none => right; simp [chatPOST, hp, hg, hip]
          | some ip =>
            have hst : r.state ≠ "running" := by
              rw [hip] at hs'
              simpa using hs'
            right; simp [chatPOST, hp, hg, hip, hst]
    rcases hc with hc | hc <;> rw [hc]
    · exact ⟨⟨500, "Failed to generate response.", rfl, by omega⟩, rfl⟩
    · exact ⟨⟨503, "EC2 instance is not running", rfl, by omega⟩, rfl⟩

theorem chat_precondition_reject_witness :
    (∃ code msg, (chatPOST none "i-1" DescribeOutcome.noInstance "cloud").1 =
        ChatRouteResp.reject code msg ∧ ¬(200 ≤ code ∧ code < 300)) ∧
      (chatPOST none "i-1" DescribeOutcome.noInstance "cloud").2 = [] :=
  chat_precondition_reject none "i-1" DescribeOutcome.noInstance "cloud"
    (Or.inl ⟨rfl, rfl⟩)

theorem truncate50_length (s : List Char) : (truncate50 s).length ≤ 50 := by
  unfold truncate50
  split
  · simp
  · omega

theorem finishTitle_length (m t : List Char) : (finishTitle m t).length ≤ 50 := by
  unfold finishTitle
  show (if truncate50 (jsTrim (collapseNewlines (stripQuotesEnds t))) = []
      then m.take 40
      else truncate50 (jsTrim (collapseNewlines (stripQuotesEnds t)))).length ≤ 50
  split
  · exact le_trans (List.length_take_le 40 m) (by omega)
  · exact truncate50_length _

/-- C8 counterexample: for the cloud provider selector, the title pipeline
does not strip `<think>` sections — the spec's example upstream result
does not clean to `Quicksort Explained` on the cloud path (only
`generateTitleLocal` removes think markers). -/
theorem title_think_strip_not_cloud :
    titlePOST (some "token") "i-1"
      (OllamaChat.DescribeOutcome.found (some "running") (some "1.2.3.4")) "cloud"
      "Explain quicksort to me".toList OllamaChat.LocalTitleOutcome.throws
      (OllamaChat.CloudTitleOutcome.ok (some "<think>ok</think>\"Quicksort Explained\"".toList)) ≠
      "Quicksort Explained".toList := by
  decide

/-- C8 (amended): for the local provider selector, the title pipeline
removes `<think>` blocks and an unterminated trailing `<think>` section,
strips wrapping quote characters, collapses newlines to spaces and
truncates to 50 characters with an ellipsis marker — in particular the
upstream result between think markers and quotes cleans to
`Quicksort Explained` — and for every provider and outcome the final
title never exceeds 50 characters.  (The cloud selector applies only the
quote/newline/truncation steps, as the counterexample shows.) -/
theorem title_clean_local :
    (∀ co : CloudTitleOutcome,
      titlePOST (some "token") "i-1"
        (OllamaChat.DescribeOutcome.found (some "running") (some "1.2.3.4")) "local"
        "Explain quicksort to me".toList
        (OllamaChat.LocalTitleOutcome.ok "<think>ok</think>\"Quicksort Explained\"".toList) co =
        "Quicksort Explained".toList) ∧
    (∀ (hfToken : Option String) (iid : String) (d : DescribeOutcome)
        (provider : String) (m : List Char) (lo : LocalTitleOutcome)
        (co : CloudTitleOutcome),
      (titlePOST hfToken iid d provider m lo co).length ≤ 50) := by
  constructor
  · intro co
    rfl
  · intro hfToken iid d provider m lo co
    have h40 : (m.take 40).length ≤ 50 :=
      le_trans (List.length_take_le 40 m) (by omega)
    unfold titlePOST
    by_cases hp : provider = "cloud"
    · rw [if_pos hp]
      by_cases ht : tokenTruthy hfToken = false
      · rw [if_pos ht]; exact h40
      · rw [if_neg ht]
        cases co with
        | throws => exact h40
        | ok content => exact finishTitle_length _ _
    · rw [if_neg hp]
      by_cases hs : statusNotReady iid d = true
      · simp only [hs, if_true]; exact h40
      · simp only [Bool.not_eq_true] at hs
        simp only [hs, Bool.false_eq_true, if_false]
        cases lo with
        | throws => exact h40
        | notOk => exact finishTitle_length _ _
        | ok resp => exact finishTitle_length _ _

/-- C9 counterexample: on a non-success local upstream response, the route
still applies its final clean-up to the 40-character fallback — for a
message starting with a quote character the returned title is not exactly
the first 40 characters of the message. -/
theorem title_fallback_not_exact :
    titlePOST (some "token") "i-1"
      (OllamaChat.DescribeOutcome.found (some "running") (some "1.2.3.4")) "local"
      "'Hello world".toList OllamaChat.LocalTitleOutcome.notOk (OllamaChat.CloudTitleOutcome.ok none) ≠
      ("'Hello world".toList.take 40) := by
  decide

/-- C9 (amended): every title-generation failure falls back to the first
40 characters of the original message — exactly so when the upstream call
throws, the cloud credential is missing, or the instance is not running
(early returns and the catch-all), while a non-success local upstream
response returns the first 40 characters further quote-stripped,
newline-collapsed and trimmed (the raw slice if that cleans to empty). -/
theorem title_failure_fallback (hfToken : Option String) (iid : String)
    (d : DescribeOutcome) (m : List Char) (lo : LocalTitleOutcome)
    (co : CloudTitleOutcome) :
    (tokenTruthy hfToken = false →
      titlePOST hfToken iid d "cloud" m lo co = m.take 40) ∧
    (titlePOST hfToken iid d "cloud" m lo CloudTitleOutcome.throws = m.take 40) ∧
    (∀ provider, provider ≠ "cloud" → statusNotReady iid d = true →
      titlePOST hfToken iid d provider m lo co = m.take 40) ∧
    (∀ provider, provider ≠ "cloud" →
      titlePOST hfToken iid d provider m OllamaChat.LocalTitleOutcome.throws co = m.take 40) ∧
    (∀ provider, provider ≠ "cloud" → statusNotReady iid d = false →
      titlePOST hfToken iid d provider m OllamaChat.LocalTitleOutcome.notOk co =
        finishTitle m (m.take 40)) := by
  refine ⟨?_, ?_, ?_, ?_, ?_⟩
  · intro ht
    simp [titlePOST, ht]
  · by_cases ht : tokenTruthy hfToken = false <;> simp [titlePOST, ht]
  · intro provider hp hs
    simp [titlePOST, hp, hs]
  · intro provider hp
    by_cases hs : statusNotReady iid d = true <;> simp [titlePOST, hp, hs]
  · intro provider hp hs
    simp [titlePOST, hp, hs]

theorem title_failure_fallback_witness :
    titlePOST (some "token") "i-1"
      (OllamaChat.DescribeOutcome.found (some "running") (some "1.2.3.4")) "local"
      "'Hello world".toList OllamaChat.LocalTitleOutcome.notOk (OllamaChat.CloudTitleOutcome.ok none) =
      finishTitle "'Hello world".toList ("'Hello world".toList.take 40) :=
  (title_failure_fallback (some "token") "i-1"
    (OllamaChat.DescribeOutcome.found (some "running") (some "1.2.3.4"))
    "'Hello world".toList OllamaChat.LocalTitleOutcome.notOk
    (OllamaChat.CloudTitleOutcome.ok none)).2.2.2.2 "local" (by decide) (by decide)

end OllamaChat

